import Mathlib

/-!
Verification of the LingoPop language-learning application
(`services/geminiService.ts`, `services/audioUtils.ts`, `types.ts`,
`App.tsx`).  The remote generative-AI service, the browser base64
primitive `atob` and the Web Audio primary decoder are external
collaborators: each is modelled as an explicit oracle parameter, while
every piece of logic owned by the repository (guards, caching, JS
truthiness defaults, entry assembly, the raw-PCM fallback decoder) is
translated operation by operation from the source.
-/

/-! ## Data model (`types.ts`) -/

/-- `types.ts`: `interface Example { target; native }`. -/
structure Example where
  target : String
  native : String
deriving Repr, DecidableEq

/-- `types.ts`: `interface ScenarioLine { speaker; text; translation }`. -/
structure ScenarioLine where
  speaker : String
  text : String
  translation : String
deriving Repr, DecidableEq

/-- `types.ts`: `interface DictionaryEntry`.  `imageUrl?` is optional, so
`Option String`; `createdAt` is a millisecond timestamp, so `Nat`. -/
structure DictionaryEntry where
  id : String
  term : String
  translatedTerm : String
  definitionTarget : String
  definitionNative : String
  examples : List Example
  scenario : List ScenarioLine
  usageNote : String
  imageUrl : Option String
  sourceLang : String
  targetLang : String
  createdAt : Nat
deriving Repr, DecidableEq

/-! ## Lookup orchestration (`geminiService.ts` / `App.tsx`) -/

/-- The fields of the JSON object `lookupWord` parses out of the model
response.  Every field is optional: the response schema sent to the
service does not mark any property required, and `App.tsx` guards each
field with `||` / `|| []` defaults. -/
structure LookupData where
  translatedTerm : Option String
  definitionTarget : Option String
  definitionNative : Option String
  examples : Option (List Example)
  scenario : Option (List ScenarioLine)
  usageNote : Option String
deriving Repr, DecidableEq

/-- Outcome of the remote structured-text call as `lookupWord` observes
it: `response.text` may be absent, may fail `JSON.parse` (after
`cleanJsonText` stripping), or parses to a `LookupData`. -/
inductive TextResponse where
  | noText : TextResponse
  | unparsable (raw : String) : TextResponse
  | parsed (d : LookupData) : TextResponse
deriving Repr, DecidableEq

/-- `geminiService.ts` `lookupWord`: throws `"No text response"` when
`response.text` is falsy, throws `"Invalid response format"` when
`JSON.parse` fails, otherwise returns the parsed object. -/
def lookupWord : TextResponse → Except String LookupData
  | .noText => .error "No text response"
  | .unparsable _ => .error "Invalid response format"
  | .parsed d => .ok d

/-- One `parts` element of an image response: `inlineData` with
`mimeType` and `data`, or absent. -/
structure ImgPart where
  inlineData : Option (String × String)
deriving Repr, DecidableEq

/-- Outcome of the remote image call as `generateConceptImage`
observes it: the call may throw, the `candidates[0].content.parts`
chain may be absent, or a parts list is returned. -/
inductive ImageOutcome where
  | throws (msg : String) : ImageOutcome
  | noParts : ImageOutcome
  | parts (ps : List ImgPart) : ImageOutcome
deriving Repr, DecidableEq

/-- `geminiService.ts` `generateConceptImage`: scans `parts` for the
first `inlineData`, builds a data URL from it; returns `undefined` when
no part has inline data, when the parts chain is absent, or when the
call throws (the `catch` returns `undefined`: "Fail gracefully"). -/
def generateConceptImage : ImageOutcome → Option String
  | .throws _ => none
  | .noParts => none
  | .parts ps =>
      match ps.findSome? (fun p => p.inlineData) with
      | some md => some ("data:" ++ md.1 ++ ";base64," ++ md.2)
      | none => none

/-- JS `x || default` applied to an optional string field: `undefined`
and the empty string are both falsy, so either falls back. -/
def jsOr (o : Option String) (d : String) : String :=
  match o with
  | none => d
  | some s => if s = "" then d else s

/-- JS `String.prototype.trim` (a platform primitive): strip whitespace
from both ends of the string. -/
def jsTrim (s : String) : String :=
  ⟨((s.data.dropWhile Char.isWhitespace).reverse.dropWhile Char.isWhitespace).reverse⟩

/-- `App.tsx` `performLookup`: bails out on a whitespace-only term;
awaits `lookupWord` (its `catch` shows an alert and produces no entry);
on success awaits `generateConceptImage` and assembles the
`DictionaryEntry` with `Date.now()` (the `now` parameter) as `id` and
`createdAt`, `||`-defaults on the text fields and `|| []` on the
lists.  Returns the entry handed to `setCurrentEntry`, or `none` when
no entry is created. -/
def performLookup (term : String) (now : Nat) (resp : TextResponse)
    (imgOut : ImageOutcome) (nativeLang targetLang : String) :
    Option DictionaryEntry :=
  if jsTrim term = "" then none
  else
    match lookupWord resp with
    | .error _ => none
    | .ok textData =>
        some
          { id := toString now
            term := term
            translatedTerm := jsOr textData.translatedTerm term
            definitionTarget := jsOr textData.definitionTarget "Definition not found"
            definitionNative := jsOr textData.definitionNative "Definition not found"
            examples := textData.examples.getD []
            scenario := textData.scenario.getD []
            usageNote := jsOr textData.usageNote "No usage note available."
            imageUrl := generateConceptImage imgOut
            sourceLang := nativeLang
            targetLang := targetLang
            createdAt := now }

/-! ## Speech generation and cache (`geminiService.ts`) -/

/-- Outcome of the remote text-to-speech call as `generateSpeech`
observes it: the call may throw, may return a response whose first
part has no `inlineData.data`, or carries a base64 audio payload. -/
inductive RemoteOutcome where
  | throws (msg : String) : RemoteOutcome
  | noData : RemoteOutcome
  | data (payload : String) : RemoteOutcome
deriving Repr, DecidableEq

/-- The remote call inside `generateSpeech`'s `try`: an exception
surfaces as `Except.error`; otherwise the optional
`candidates[0].content.parts[0].inlineData.data` payload comes back. -/
def ttsRemoteCall : RemoteOutcome → Except String (Option String)
  | .throws m => .error m
  | .noData => .ok none
  | .data s => .ok (some s)

/-- `ttsCache` is a `Map<string, string>`; newest binding shadows. -/
abbrev TtsCache := List (String × String)

/-- Result of one `generateSpeech` run: the returned payload
(`string | null`), the cache afterwards, and how many remote TTS
requests the run issued (0 or 1). -/
structure SpeechResult where
  result : Option String
  cache : TtsCache
  remoteCalls : Nat
deriving Repr, DecidableEq

/-- `geminiService.ts` `generateSpeech`: `if (!text) return null` (no
cache consultation, no remote call); on `ttsCache.has(text)` return the
cached payload; otherwise issue the remote call — a throw is caught and
becomes `null`, a response without inline data becomes `null`, and a
payload is stored in the cache and returned.  The `try/catch` means the
function itself never rejects, hence the `Except.ok` on every path. -/
def generateSpeech (remote : String → RemoteOutcome) (cache : TtsCache)
    (text : String) : Except String SpeechResult :=
  if text = "" then .ok ⟨none, cache, 0⟩
  else
    match List.lookup text cache with
    | some v => .ok ⟨some v, cache, 0⟩
    | none =>
        match ttsRemoteCall (remote text) with
        | .error _ => .ok ⟨none, cache, 1⟩
        | .ok none => .ok ⟨none, cache, 1⟩
        | .ok (some s) => .ok ⟨some s, (text, s) :: cache, 1⟩

/-- The value `generateSpeech` actually produces (it is total thanks to
its `catch`); the default is never reached. -/
def speechStep (remote : String → RemoteOutcome) (cache : TtsCache)
    (text : String) : SpeechResult :=
  match generateSpeech remote cache text with
  | .ok res => res
  | .error _ => ⟨none, cache, 0⟩

/-- Two successive `generateSpeech` runs on the same text starting from
an empty cache: total number of remote TTS requests issued. -/
def speechCallsTwice (remote : String → RemoteOutcome) (t : String) : Nat :=
  let r1 := speechStep remote [] t
  let r2 := speechStep remote r1.cache t
  r1.remoteCalls + r2.remoteCalls

theorem generateSpeech_eq_ok (remote : String → RemoteOutcome)
    (cache : TtsCache) (text : String) :
    generateSpeech remote cache text = .ok (speechStep remote cache text) := by
  unfold speechStep generateSpeech
  split
  · rfl
  · rcases h : List.lookup text cache with _ | v
    · rcases hr : remote text with m | _ | s <;> simp [ttsRemoteCall]
    · simp

theorem speechStep_empty (remote : String → RemoteOutcome) (cache : TtsCache) :
    speechStep remote cache "" = ⟨none, cache, 0⟩ := rfl

theorem speechStep_hit (remote : String → RemoteOutcome) (cache : TtsCache)
    (text v : String) (ht : text ≠ "") (hv : List.lookup text cache = some v) :
    speechStep remote cache text = ⟨some v, cache, 0⟩ := by
  simp [speechStep, generateSpeech, ht, hv]

theorem speechStep_miss_data (remote : String → RemoteOutcome)
    (cache : TtsCache) (text s : String) (ht : text ≠ "")
    (hm : List.lookup text cache = none) (hr : remote text = .data s) :
    speechStep remote cache text = ⟨some s, (text, s) :: cache, 1⟩ := by
  simp [speechStep, generateSpeech, ht, hm, hr, ttsRemoteCall]

theorem speechStep_miss_fail (remote : String → RemoteOutcome)
    (cache : TtsCache) (text : String) (ht : text ≠ "")
    (hm : List.lookup text cache = none)
    (hr : ∀ s, remote text ≠ .data s) :
    speechStep remote cache text = ⟨none, cache, 1⟩ := by
  rcases h : remote text with m | _ | s
  · simp [speechStep, generateSpeech, ht, hm, h, ttsRemoteCall]
  · simp [speechStep, generateSpeech, ht, hm, h, ttsRemoteCall]
  · exact absurd h (hr s)

/-! ## Shared lemmas for the lookup claims -/

theorem jsOr_ne_empty (o : Option String) (d : String) (hd : d ≠ "") :
    jsOr o d ≠ "" := by
  cases o with
  | none => exact hd
  | some s =>
      by_cases hs : s = ""
      · simpa [jsOr, hs] using hd
      · simp only [jsOr, if_neg hs]
        exact hs

theorem jsTrim_ne_empty_of_trim (term : String) (h : jsTrim term ≠ "") :
    term ≠ "" := by
  intro he
  subst he
  exact h rfl

theorem performLookup_parsed_eq (term : String) (now : Nat) (d : LookupData)
    (imgOut : ImageOutcome) (nativeLang targetLang : String)
    (h : jsTrim term ≠ "") :
    performLookup term now (.parsed d) imgOut nativeLang targetLang =
      some
        { id := toString now
          term := term
          translatedTerm := jsOr d.translatedTerm term
          definitionTarget := jsOr d.definitionTarget "Definition not found"
          definitionNative := jsOr d.definitionNative "Definition not found"
          examples := d.examples.getD []
          scenario := d.scenario.getD []
          usageNote := jsOr d.usageNote "No usage note available."
          imageUrl := generateConceptImage imgOut
          sourceLang := nativeLang
          targetLang := targetLang
          createdAt := now } := by
  simp [performLookup, lookupWord, h]

/-- A parsed response carrying three example sentences and an empty
dialogue: the counts the spec requires (2 examples, 3-4 scenario lines)
are both violated. -/
def c1Data : LookupData :=
  { translatedTerm := some "ladrillo"
    definitionTarget := some "Un bloque de arcilla"
    definitionNative := some "A block of clay"
    examples := some [⟨"e1", "n1"⟩, ⟨"e2", "n2"⟩, ⟨"e3", "n3"⟩]
    scenario := some []
    usageNote := some "tip" }

/-- C1 (counterexample): a response that parses but has 3 examples and
0 scenario lines is not rejected — `performLookup` still assembles and
surfaces an entry with those counts, contradicting both "exactly 2 / 3
to 4" and "violating counts is a hard failure producing no entry". -/
theorem c1_count_violation_still_entry :
    (performLookup "brick" 0 (TextResponse.parsed c1Data) ImageOutcome.noParts
          "en" "es").map (fun e => (e.examples.length, e.scenario.length)) =
      some (3, 0) := by
  decide

/-- C1 (amended): for every non-empty term, a lookup whose
structured-text step parses always produces an entry whose `examples`
and `scenario` are exactly the parsed lists (empty when the field is
absent) — no element-count validation is performed; a missing or
unparsable text response is a hard failure producing no entry. -/
theorem performLookup_counts_unvalidated (term : String) (now : Nat)
    (d : LookupData) (imgOut : ImageOutcome) (nativeLang targetLang : String)
    (h : jsTrim term ≠ "") :
    (∃ e, performLookup term now (.parsed d) imgOut nativeLang targetLang =
        some e ∧ e.examples = d.examples.getD [] ∧
        e.scenario = d.scenario.getD []) ∧
    (∀ raw, performLookup term now (.unparsable raw) imgOut nativeLang
        targetLang = none) ∧
    performLookup term now .noText imgOut nativeLang targetLang = none := by
  refine ⟨⟨_, performLookup_parsed_eq term now d imgOut nativeLang targetLang h,
    rfl, rfl⟩, fun raw => ?_, ?_⟩ <;>
    simp [performLookup, lookupWord, h]

/-- Witness for C1's amended theorem at a concrete input. -/
theorem performLookup_counts_unvalidated_witness :
    (∃ e, performLookup "brick" 0 (.parsed c1Data) ImageOutcome.noParts
        "en" "es" = some e ∧ e.examples = c1Data.examples.getD [] ∧
        e.scenario = c1Data.scenario.getD []) ∧
    (∀ raw, performLookup "brick" 0 (.unparsable raw) ImageOutcome.noParts
        "en" "es" = none) ∧
    performLookup "brick" 0 .noText ImageOutcome.noParts "en" "es" = none :=
  performLookup_counts_unvalidated "brick" 0 c1Data ImageOutcome.noParts
    "en" "es" (by decide)

/-- C2: when the structured-text step succeeds but image generation
fails (throws or returns no inline data), the lookup still succeeds: an
entry is surfaced with `imageUrl` absent, every text field non-empty,
and the parsed lists intact — image failure alone never aborts entry
creation. -/
theorem image_failure_never_aborts_entry (term : String) (now : Nat)
    (d : LookupData) (imgOut : ImageOutcome) (nativeLang targetLang : String)
    (h : jsTrim term ≠ "") (himg : generateConceptImage imgOut = none) :
    ∃ e, performLookup term now (.parsed d) imgOut nativeLang targetLang =
        some e ∧ e.imageUrl = none ∧ e.translatedTerm ≠ "" ∧
        e.definitionTarget ≠ "" ∧ e.definitionNative ≠ "" ∧
        e.usageNote ≠ "" ∧ e.examples = d.examples.getD [] ∧
        e.scenario = d.scenario.getD [] := by
  refine ⟨_, performLookup_parsed_eq term now d imgOut nativeLang targetLang h,
    himg, ?_, ?_, ?_, ?_, rfl, rfl⟩
  · exact jsOr_ne_empty _ _ (jsTrim_ne_empty_of_trim term h)
  · exact jsOr_ne_empty _ _ (by decide)
  · exact jsOr_ne_empty _ _ (by decide)
  · exact jsOr_ne_empty _ _ (by decide)

/-- Witness for C2's theorem at a concrete input (image call throws). -/
theorem image_failure_never_aborts_entry_witness :
    ∃ e, performLookup "brick" 0 (.parsed c1Data) (ImageOutcome.throws "503")
        "en" "es" = some e ∧ e.imageUrl = none ∧ e.translatedTerm ≠ "" ∧
        e.definitionTarget ≠ "" ∧ e.definitionNative ≠ "" ∧
        e.usageNote ≠ "" ∧ e.examples = c1Data.examples.getD [] ∧
        e.scenario = c1Data.scenario.getD [] :=
  image_failure_never_aborts_entry "brick" 0 c1Data (ImageOutcome.throws "503")
    "en" "es" (by decide) rfl

/-! ## Speech cache claims -/

/-- C5: the speech operation never raises to its caller: whatever the
remote outcome (including a thrown exception, absorbed by the `catch`),
`generateSpeech` resolves with a value — a missing payload is reported
as `none`, never as an error. -/
theorem generateSpeech_never_rejects (remote : String → RemoteOutcome)
    (cache : TtsCache) (text : String) :
    ∃ res, generateSpeech remote cache text = Except.ok res :=
  ⟨speechStep remote cache text, generateSpeech_eq_ok remote cache text⟩

/-- A remote TTS oracle whose call always throws. -/
def c3FailingRemote : String → RemoteOutcome := fun _ =>
  RemoteOutcome.throws "TTS failed"

/-- C3 (counterexample): when the remote call fails, nothing is cached,
so calling the operation twice with the same non-empty text issues two
remote calls — not the "exactly one" the claim states for every text. -/
theorem speech_same_text_twice_two_calls_on_failure :
    speechCallsTwice c3FailingRemote "hola" = 2 := by
  decide

/-- C3 (amended): the speech operation is memoized by exact input
string *for successful payloads*: when the remote call for a non-empty
`t` returns a payload, two successive calls with `t` issue exactly one
remote call and the second returns the cached payload with no remote
call; two distinct non-empty texts always issue two remote calls; the
empty text issues zero remote calls and returns an absent result
without touching the cache. -/
theorem speech_cache_memoization :
    (∀ (remote : String → RemoteOutcome) (t s : String), t ≠ "" →
        remote t = RemoteOutcome.data s →
        speechCallsTwice remote t = 1 ∧
        (speechStep remote (speechStep remote [] t).cache t).result = some s ∧
        (speechStep remote (speechStep remote [] t).cache t).remoteCalls = 0) ∧
    (∀ (remote : String → RemoteOutcome) (t1 t2 : String),
        t1 ≠ "" → t2 ≠ "" → t1 ≠ t2 →
        (speechStep remote [] t1).remoteCalls +
          (speechStep remote (speechStep remote [] t1).cache t2).remoteCalls = 2) ∧
    (∀ (remote : String → RemoteOutcome) (cache : TtsCache),
        speechStep remote cache "" = ⟨none, cache, 0⟩) := by
  refine ⟨?_, ?_, fun remote cache => speechStep_empty remote cache⟩
  · intro remote t s ht hr
    have h1 : speechStep remote [] t = ⟨some s, [(t, s)], 1⟩ :=
      speechStep_miss_data remote [] t s ht rfl hr
    have h2 : speechStep remote [(t, s)] t = ⟨some s, [(t, s)], 0⟩ :=
      speechStep_hit remote [(t, s)] t s ht (by simp [List.lookup])
    refine ⟨?_, ?_, ?_⟩ <;> simp [speechCallsTwice, h1, h2]
  · intro remote t1 t2 ht1 ht2 hne
    rcases hr : remote t1 with m | _ | s
    · have h1 : speechStep remote [] t1 = ⟨none, [], 1⟩ :=
        speechStep_miss_fail remote [] t1 ht1 rfl (by simp [hr])
      have h2 : speechStep remote [] t2 = ⟨(speechStep remote [] t2).result,
          (speechStep remote [] t2).cache, 1⟩ := by
        rcases hr2 : remote t2 with m2 | _ | s2
        · rw [speechStep_miss_fail remote [] t2 ht2 rfl (by simp [hr2])]
        · rw [speechStep_miss_fail remote [] t2 ht2 rfl (by simp [hr2])]
        · rw [speechStep_miss_data remote [] t2 s2 ht2 rfl hr2]
      rw [h1]
      rw [show (speechStep remote (SpeechResult.cache ⟨none, [], 1⟩) t2) =
        speechStep remote [] t2 from rfl, h2]
      rfl
    · have h1 : speechStep remote [] t1 = ⟨none, [], 1⟩ :=
        speechStep_miss_fail remote [] t1 ht1 rfl (by simp [hr])
      have h2 : speechStep remote [] t2 = ⟨(speechStep remote [] t2).result,
          (speechStep remote [] t2).cache, 1⟩ := by
        rcases hr2 : remote t2 with m2 | _ | s2
        · rw [speechStep_miss_fail remote [] t2 ht2 rfl (by simp [hr2])]
        · rw [speechStep_miss_fail remote [] t2 ht2 rfl (by simp [hr2])]
        · rw [speechStep_miss_data remote [] t2 s2 ht2 rfl hr2]
      rw [h1]
      rw [show (speechStep remote (SpeechResult.cache ⟨none, [], 1⟩) t2) =
        speechStep remote [] t2 from rfl, h2]
      rfl
    · have h1 : speechStep remote [] t1 = ⟨some s, [(t1, s)], 1⟩ :=
        speechStep_miss_data remote [] t1 s ht1 rfl hr
      have hl : List.lookup t2 ([(t1, s)] : TtsCache) = none := by
        simp [List.lookup, beq_eq_false_iff_ne.mpr hne.symm]
      have h2 : speechStep remote [(t1, s)] t2 =
          ⟨(speechStep remote [(t1, s)] t2).result,
            (speechStep remote [(t1, s)] t2).cache, 1⟩ := by
        rcases hr2 : remote t2 with m2 | _ | s2
        · rw [speechStep_miss_fail remote [(t1, s)] t2 ht2 hl (by simp [hr2])]
        · rw [speechStep_miss_fail remote [(t1, s)] t2 ht2 hl (by simp [hr2])]
        · rw [speechStep_miss_data remote [(t1, s)] t2 s2 ht2 hl hr2]
      rw [h1]
      rw [show (speechStep remote (SpeechResult.cache ⟨some s, [(t1, s)], 1⟩) t2) =
        speechStep remote [(t1, s)] t2 from rfl, h2]
      rfl

/-- A remote TTS oracle that returns a payload for every text. -/
def c3GoodRemote : String → RemoteOutcome := fun t =>
  RemoteOutcome.data ("pcm:" ++ t)

/-- Witness for C3's amended theorem at concrete inputs. -/
theorem speech_cache_memoization_witness :
    (speechCallsTwice c3GoodRemote "hola" = 1 ∧
      (speechStep c3GoodRemote (speechStep c3GoodRemote [] "hola").cache
          "hola").result = some ("pcm:" ++ "hola") ∧
      (speechStep c3GoodRemote (speechStep c3GoodRemote [] "hola").cache
          "hola").remoteCalls = 0) ∧
    ((speechStep c3GoodRemote [] "uno").remoteCalls +
      (speechStep c3GoodRemote (speechStep c3GoodRemote [] "uno").cache
          "dos").remoteCalls = 2) ∧
    speechStep c3GoodRemote [] "" = ⟨none, [], 0⟩ :=
  ⟨speech_cache_memoization.1 c3GoodRemote "hola" ("pcm:" ++ "hola")
      (by decide) rfl,
    speech_cache_memoization.2.1 c3GoodRemote "uno" "dos" (by decide)
      (by decide) (by decide),
    speech_cache_memoization.2.2 c3GoodRemote []⟩

/-- C8: the speech cache is unchanged on failure — if the remote call
for a non-empty uncached text throws or returns no inline audio data,
no cache entry is created and a subsequent call with the same text
issues a new remote request; and in every run the cache either stays
unchanged or gains exactly the successful payload under the exact input
text. -/
theorem speech_cache_unchanged_on_failure :
    (∀ (remote : String → RemoteOutcome) (cache : TtsCache) (t : String),
        t ≠ "" → List.lookup t cache = none →
        (∀ s, remote t ≠ RemoteOutcome.data s) →
        (speechStep remote cache t).cache = cache ∧
        (speechStep remote cache t).remoteCalls = 1 ∧
        (speechStep remote (speechStep remote cache t).cache t).remoteCalls = 1) ∧
    (∀ (remote : String → RemoteOutcome) (cache : TtsCache) (t : String),
        (speechStep remote cache t).cache = cache ∨
        ∃ s, remote t = RemoteOutcome.data s ∧
          (speechStep remote cache t).cache = (t, s) :: cache) := by
  constructor
  · intro remote cache t ht hm hr
    have h1 : speechStep remote cache t = ⟨none, cache, 1⟩ :=
      speechStep_miss_fail remote cache t ht hm hr
    refine ⟨by simp [h1], by simp [h1], ?_⟩
    rw [show (speechStep remote (SpeechResult.cache ⟨none, cache, 1⟩) t) =
      speechStep remote cache t from rfl, h1] at *
    rw [h1]
    simp [speechStep_miss_fail remote cache t ht hm hr, h1]
  · intro remote cache t
    by_cases ht : t = ""
    · subst ht
      left
      rw [speechStep_empty]
    · rcases hm : List.lookup t cache with _ | v
      · rcases hr : remote t with m | _ | s
        · left
          rw [speechStep_miss_fail remote cache t ht hm (by simp [hr])]
        · left
          rw [speechStep_miss_fail remote cache t ht hm (by simp [hr])]
        · right
          exact ⟨s, rfl, by rw [speechStep_miss_data remote cache t s ht hm hr]⟩
      · left
        rw [speechStep_hit remote cache t v ht hm]

/-- Witness for C8's theorem at concrete inputs. -/
theorem speech_cache_unchanged_on_failure_witness :
    ((speechStep c3FailingRemote [] "hola").cache = [] ∧
      (speechStep c3FailingRemote [] "hola").remoteCalls = 1 ∧
      (speechStep c3FailingRemote (speechStep c3FailingRemote [] "hola").cache
          "hola").remoteCalls = 1) ∧
    ((speechStep c3FailingRemote [] "hola").cache = [] ∨
      ∃ s, c3FailingRemote "hola" = RemoteOutcome.data s ∧
        (speechStep c3FailingRemote [] "hola").cache = [("hola", s)]) :=
  ⟨speech_cache_unchanged_on_failure.1 c3FailingRemote [] "hola" (by decide)
      rfl (fun s h => RemoteOutcome.noConfusion h),
    speech_cache_unchanged_on_failure.2 c3FailingRemote [] "hola"⟩

/-! ## Notebook store (`App.tsx` `addToNotebook`) -/

/-- `App.tsx` `addToNotebook`: insert `currentEntry` at the front of
the notebook unless `notebook.find(n => n.id === currentEntry.id)`
already finds an entry with the same id. -/
def addToNotebook (currentEntry : DictionaryEntry)
    (notebook : List DictionaryEntry) : List DictionaryEntry :=
  if notebook.any (fun n => n.id == currentEntry.id) then notebook
  else currentEntry :: notebook

/-- Adding a list of entries one by one, oldest first. -/
def addAll (es : List DictionaryEntry) (notebook : List DictionaryEntry) :
    List DictionaryEntry :=
  es.foldl (fun acc e => addToNotebook e acc) notebook

theorem addToNotebook_dup (e : DictionaryEntry) (nb : List DictionaryEntry)
    (h : ∃ n ∈ nb, n.id = e.id) : addToNotebook e nb = nb := by
  have hany : nb.any (fun n => n.id == e.id) = true := by
    rcases h with ⟨n, hn, hid⟩
    exact List.any_eq_true.mpr ⟨n, hn, beq_iff_eq.mpr hid⟩
  simp [addToNotebook, hany]

theorem addToNotebook_new (e : DictionaryEntry) (nb : List DictionaryEntry)
    (h : ∀ n ∈ nb, n.id ≠ e.id) : addToNotebook e nb = e :: nb := by
  have hany : ¬ nb.any (fun n => n.id == e.id) = true := by
    simp only [List.any_eq_true, beq_iff_eq, not_exists, not_and]
    exact h
  simp [addToNotebook, hany]

theorem addAll_eq_reverse_append :
    ∀ (es nb : List DictionaryEntry), (es.map (fun e => e.id)).Nodup →
      (∀ e ∈ es, ∀ n ∈ nb, n.id ≠ e.id) → addAll es nb = es.reverse ++ nb := by
  intro es
  induction es with
  | nil => intro nb _ _; simp [addAll]
  | cons e es ih =>
      intro nb hnodup hdisj
      have hpair : (∀ x ∈ es, ¬ x.id = e.id) ∧
          (es.map (fun e => e.id)).Nodup := by
        simpa using hnodup
      have hstep : addToNotebook e nb = e :: nb :=
        addToNotebook_new e nb (fun n hn => hdisj e (by simp) n hn)
      have hrest : addAll es (e :: nb) = es.reverse ++ (e :: nb) := by
        refine ih (e :: nb) hpair.2 ?_
        intro e2 he2 n hn
        rcases List.mem_cons.mp hn with hne | hnb
        · subst hne
          intro hcontra
          exact hpair.1 e2 he2 hcontra.symm
        · exact hdisj e2 (List.mem_cons_of_mem _ he2) n hnb
      calc addAll (e :: es) nb = addAll es (addToNotebook e nb) := rfl
        _ = addAll es (e :: nb) := by rw [hstep]
        _ = es.reverse ++ (e :: nb) := hrest
        _ = (e :: es).reverse ++ nb := by simp

/-- C4: notebook add is idempotent by id — adding an entry whose id is
already present leaves the collection unchanged; adding N entries with
pairwise distinct ids into the empty notebook yields a collection of
length N in most-recently-added-first (reverse-insertion) order. -/
theorem notebook_add_idempotent_and_ordered :
    (∀ (e : DictionaryEntry) (nb : List DictionaryEntry),
        (∃ n ∈ nb, n.id = e.id) → addToNotebook e nb = nb) ∧
    (∀ es : List DictionaryEntry, (es.map (fun e => e.id)).Nodup →
        addAll es [] = es.reverse ∧ (addAll es []).length = es.length) := by
  refine ⟨addToNotebook_dup, fun es h => ?_⟩
  have heq := addAll_eq_reverse_append es [] h (by simp)
  constructor
  · simpa using heq
  · simp [heq]

/-- A concrete notebook entry with the given id, for witnesses. -/
def c4Entry (i : String) : DictionaryEntry :=
  { id := i
    term := "term" ++ i
    translatedTerm := "palabra" ++ i
    definitionTarget := "def"
    definitionNative := "defn"
    examples := []
    scenario := []
    usageNote := "note"
    imageUrl := none
    sourceLang := "en"
    targetLang := "es"
    createdAt := 0 }

/-- Witness for C4's theorem at concrete inputs. -/
theorem notebook_add_idempotent_and_ordered_witness :
    addToNotebook (c4Entry "1") [c4Entry "1", c4Entry "2"] =
        [c4Entry "1", c4Entry "2"] ∧
    (addAll [c4Entry "1", c4Entry "2", c4Entry "3"] [] =
        [c4Entry "1", c4Entry "2", c4Entry "3"].reverse ∧
      (addAll [c4Entry "1", c4Entry "2", c4Entry "3"] []).length =
        [c4Entry "1", c4Entry "2", c4Entry "3"].length) :=
  ⟨notebook_add_idempotent_and_ordered.1 (c4Entry "1")
      [c4Entry "1", c4Entry "2"] ⟨c4Entry "1", by simp, rfl⟩,
    notebook_add_idempotent_and_ordered.2
      [c4Entry "1", c4Entry "2", c4Entry "3"] (by decide)⟩

/-! ## Story word selection (`App.tsx` `toggleStoryWordSelection`) -/

/-- `App.tsx` `toggleStoryWordSelection`: if the id is selected, filter
it out; otherwise refuse when 5 or more are already selected (alert),
else append the id at the end. -/
def toggleStoryWordSelection (id : String)
    (selectedStoryWordIds : List String) : List String :=
  if selectedStoryWordIds.contains id then
    selectedStoryWordIds.filter (fun wId => wId != id)
  else if 5 ≤ selectedStoryWordIds.length then selectedStoryWordIds
  else selectedStoryWordIds ++ [id]

theorem toggle_preserves_inv (id : String) (sel : List String)
    (h : sel.Nodup ∧ sel.length ≤ 5) :
    (toggleStoryWordSelection id sel).Nodup ∧
      (toggleStoryWordSelection id sel).length ≤ 5 := by
  rcases h with ⟨hn, hl⟩
  by_cases hc : sel.contains id = true
  · refine ⟨?_, ?_⟩ <;> simp only [toggleStoryWordSelection, hc, if_pos]
    · exact hn.filter _
    · exact le_trans (List.length_filter_le _ _) hl
  · have hid : id ∉ sel := by simpa using hc
    by_cases h5 : 5 ≤ sel.length
    · simp [toggleStoryWordSelection, hid, h5, hn, hl]
    · 
      refine ⟨?_, ?_⟩ <;> simp only [toggleStoryWordSelection, hc, h5, if_neg,
        Bool.false_eq_true, if_false]
      · simp [List.nodup_append, hn, hid]
      · simp only [List.length_append, List.length_singleton]
        omega

/-- C9: starting from the empty selection, after any sequence of
toggles the selected id list is duplicate-free with length at most 5;
toggling a selected id removes it (and only it); toggling a new id when
5 are selected leaves the selection unchanged. -/
theorem story_selection_invariant :
    (∀ ids : List String,
        (ids.foldl (fun s i => toggleStoryWordSelection i s) []).Nodup ∧
        (ids.foldl (fun s i => toggleStoryWordSelection i s) []).length ≤ 5) ∧
    (∀ (sel : List String) (id : String), id ∈ sel →
        id ∉ toggleStoryWordSelection id sel ∧
        ∀ x, x ≠ id → (x ∈ toggleStoryWordSelection id sel ↔ x ∈ sel)) ∧
    (∀ (sel : List String) (id : String), id ∉ sel → sel.length = 5 →
        toggleStoryWordSelection id sel = sel) := by
  refine ⟨?_, ?_, ?_⟩
  · have hgen : ∀ (ids sel : List String), sel.Nodup ∧ sel.length ≤ 5 →
        ((ids.foldl (fun s i => toggleStoryWordSelection i s) sel).Nodup ∧
          (ids.foldl (fun s i => toggleStoryWordSelection i s) sel).length ≤ 5) := by
      intro ids
      induction ids with
      | nil => intro sel h; exact h
      | cons i ids ih => intro sel h; exact ih _ (toggle_preserves_inv i sel h)
    intro ids
    exact hgen ids [] ⟨List.nodup_nil, by simp⟩
  · intro sel id hid
    constructor
    · simp [toggleStoryWordSelection, hid, List.mem_filter]
    · intro x hx
      simp [toggleStoryWordSelection, hid, List.mem_filter, hx]
  · intro sel id hid hlen
    simp [toggleStoryWordSelection, hid, hlen]

/-- Witness for C9's theorem at concrete inputs. -/
theorem story_selection_invariant_witness :
    ((["a", "b", "a", "c"].foldl (fun s i => toggleStoryWordSelection i s)
        []).Nodup ∧
      (["a", "b", "a", "c"].foldl (fun s i => toggleStoryWordSelection i s)
        []).length ≤ 5) ∧
    ("a" ∉ toggleStoryWordSelection "a" ["a", "b"] ∧
      ∀ x, x ≠ "a" → (x ∈ toggleStoryWordSelection "a" ["a", "b"] ↔
        x ∈ ["a", "b"])) ∧
    toggleStoryWordSelection "f" ["a", "b", "c", "d", "e"] =
      ["a", "b", "c", "d", "e"] :=
  ⟨story_selection_invariant.1 ["a", "b", "a", "c"],
    story_selection_invariant.2.1 ["a", "b"] "a" (by decide),
    story_selection_invariant.2.2 ["a", "b", "c", "d", "e"] "f" (by decide)
      (by decide)⟩

/-! ## Audio playback guard (`App.tsx` `playAudio`) -/

/-- JS truthiness of a `string | null` value: `null` and `""` are
falsy. -/
def jsTruthyStr : Option String → Bool
  | none => false
  | some s => s != ""

/-- Observable outcome of one `playAudio` call. -/
structure PlayAudioResult where
  speechRequested : Bool
  played : Bool
  markerWhileLoading : Option String
  audioLoadingId : Option String
  cache : TtsCache
deriving Repr, DecidableEq

/-- `App.tsx` `playAudio`: `if (audioLoadingId) return` rejects a
request while one is pending; `if (!text) return` rejects empty text;
otherwise the marker is set to `uniqueId`, `generateSpeech` is awaited
(`speechRequested`), playback starts only when a payload came back, and
the `finally` clears the marker. -/
def playAudio (audioLoadingId : Option String) (text uniqueId : String)
    (remote : String → RemoteOutcome) (cache : TtsCache) : PlayAudioResult :=
  if jsTruthyStr audioLoadingId then
    ⟨false, false, audioLoadingId, audioLoadingId, cache⟩
  else if text = "" then
    ⟨false, false, audioLoadingId, audioLoadingId, cache⟩
  else
    let r := speechStep remote cache text
    ⟨true, r.result.isSome, some uniqueId, none, r.cache⟩

/-- C7: while a playback request is pending (the loading marker holds a
truthy value), a second `playAudio` call is rejected outright: no
speech request is issued, nothing is played, the marker and the cache
are untouched. -/
theorem playAudio_rejects_while_pending (audioLoadingId : Option String)
    (text uniqueId : String) (remote : String → RemoteOutcome)
    (cache : TtsCache) (h : jsTruthyStr audioLoadingId = true) :
    playAudio audioLoadingId text uniqueId remote cache =
      ⟨false, false, audioLoadingId, audioLoadingId, cache⟩ := by
  simp [playAudio, h]

/-- Witness for C7's theorem at a concrete pending state. -/
theorem playAudio_rejects_while_pending_witness :
    playAudio (some "main-17") "hola" "scenario-0-17" c3GoodRemote [] =
      ⟨false, false, some "main-17", some "main-17", []⟩ :=
  playAudio_rejects_while_pending (some "main-17") "hola" "scenario-0-17"
    c3GoodRemote [] (by decide)

/-! ## Audio decoding (`audioUtils.ts` `decodeAudioData`) -/

/-- The `Int16Array` view of two consecutive bytes, little-endian:
values at or above `2^15` represent negatives. -/
def toSigned16 (n : Nat) : Int :=
  if n < 32768 then (n : Int) else (n : Int) - 65536

/-- `new Int16Array(data.buffer)`: consecutive byte pairs read as
signed 16-bit little-endian values; its length is `byteLength / 2`
(the constructor itself throws on an odd byte length, handled in
`linear16Fallback`). -/
def int16LEPairs : List Nat → List Int
  | b0 :: b1 :: rest => toSigned16 (b0 + 256 * b1) :: int16LEPairs rest
  | _ => []

/-- A decoded Web Audio buffer: per-channel sample lists.  Samples are
modelled as rationals: the only arithmetic performed on them is an
exact division by the power of two `32768`, which binary floating
point also performs exactly. -/
structure AudioBuffer where
  numChannels : Nat
  sampleRate : Nat
  channels : List (List ℚ)
deriving Repr, DecidableEq

/-- The inner loop of the fallback:
`channelData[i] = dataInt16[i * numChannels + channel] / 32768.0`. -/
def channelSamples (dataInt16 : List Int) (numChannels channel frameCount : Nat) :
    List ℚ :=
  (List.range frameCount).map
    (fun i => ((dataInt16.getD (i * numChannels + channel) 0 : Int) : ℚ) / 32768)

/-- The `catch` branch of `decodeAudioData`: raw linear16 PCM
interpretation.  `new Int16Array(data.buffer)` throws a `RangeError`
when `byteLength` is odd, and `ctx.createBuffer` throws a
`NotSupportedError` when the channel count or the frame count is zero,
hence the three `none` guards; otherwise
`frameCount = dataInt16.length / numChannels` frames per channel are
produced. -/
def linear16Fallback (data : List Nat) (sampleRate numChannels : Nat) :
    Option AudioBuffer :=
  if data.length % 2 ≠ 0 then none
  else if numChannels = 0 then none
  else
    let dataInt16 := int16LEPairs data
    let frameCount := dataInt16.length / numChannels
    if frameCount = 0 then none
    else
      some ⟨numChannels, sampleRate,
        (List.range numChannels).map
          (fun channel => channelSamples dataInt16 numChannels channel frameCount)⟩

/-- `audioUtils.ts` `decodeAudioData`: try the platform's
self-describing decode (`ctx.decodeAudioData`, the external `primary`
oracle) on a copy of the bytes; on failure fall back to the manual
linear16 interpretation at the given sample rate and channel count
(their call-site values are 24000 and 1). -/
def decodeAudioData (primary : List Nat → Option AudioBuffer)
    (data : List Nat) (sampleRate numChannels : Nat) : Option AudioBuffer :=
  match primary data with
  | some buf => some buf
  | none => linear16Fallback data sampleRate numChannels

theorem int16LEPairs_length : ∀ l : List Nat,
    (int16LEPairs l).length = l.length / 2
  | [] => rfl
  | [_] => by simp [int16LEPairs]
  | _ :: _ :: rest => by
      simp only [int16LEPairs, List.length_cons, int16LEPairs_length rest]
      omega

theorem int16LEPairs_bounds : ∀ l : List Nat, (∀ b ∈ l, b < 256) →
    ∀ x ∈ int16LEPairs l, -32768 ≤ x ∧ x ≤ 32767
  | [] => by intro _ x hx; cases hx
  | [_] => by intro _ x hx; cases hx
  | b0 :: b1 :: rest => by
      intro hb x hx
      rcases List.mem_cons.mp hx with hhead | htail
      · subst hhead
        have h0 : b0 < 256 := hb b0 (by simp)
        have h1 : b1 < 256 := hb b1 (by simp)
        simp only [toSigned16]
        split <;> omega
      · exact int16LEPairs_bounds rest (fun b hbr => hb b (by simp [hbr]))
          x htail

theorem sample_in_unit_range (x : Int) (h1 : -32768 ≤ x) (h2 : x ≤ 32767) :
    -1 ≤ (x : ℚ) / 32768 ∧ (x : ℚ) / 32768 ≤ 1 := by
  have h32 : (0 : ℚ) < 32768 := by norm_num
  constructor
  · rw [le_div_iff₀ h32]
    have hc : (-32768 : ℚ) ≤ (x : ℚ) := by exact_mod_cast h1
    linarith
  · rw [div_le_one h32]
    have hc : (x : ℚ) ≤ 32767 := by exact_mod_cast h2
    linarith

theorem channelSamples_bounds (dataInt16 : List Int)
    (numChannels channel frameCount : Nat)
    (hd : ∀ x ∈ dataInt16, -32768 ≤ x ∧ x ≤ 32767) :
    ∀ q ∈ channelSamples dataInt16 numChannels channel frameCount,
      -1 ≤ q ∧ q ≤ 1 := by
  intro q hq
  rcases List.mem_map.mp hq with ⟨i, _, hqi⟩
  subst hqi
  set idx := i * numChannels + channel with hidx
  by_cases hlt : idx < dataInt16.length
  · rw [List.getD_eq_getElem dataInt16 0 hlt]
    exact sample_in_unit_range _ (hd _ (List.getElem_mem hlt)).1
      (hd _ (List.getElem_mem hlt)).2
  · rw [List.getD_eq_default dataInt16 0 (by omega)]
    norm_num

/-- C6 (counterexample): a payload of odd byte length on which the
primary decode fails produces no buffer at all — the fallback's
`Int16Array` construction throws — rather than the
`byteLength/2/numChannels`-frame buffer the claim promises for every
payload. -/
theorem decodeAudioData_odd_payload_no_buffer :
    decodeAudioData (fun _ => none) [0] 24000 1 = none := by
  decide

/-- C6 (amended): for every byte payload of even length holding at
least one whole frame, when the primary self-describing decode fails,
the fallback linear16 interpretation produces a buffer with one sample
list per channel, each of length `byteLength/2/numChannels` frames,
whose samples are the signed 16-bit little-endian values divided by
32768 and therefore all lie in `[-1, 1]`; a payload of odd byte length
makes the fallback's `Int16Array` construction throw, and one decoding
to zero frames makes `ctx.createBuffer` throw, producing no buffer in
either case. -/
theorem decodeAudioData_fallback_spec (primary : List Nat → Option AudioBuffer)
    (data : List Nat) (sampleRate numChannels : Nat)
    (hbytes : ∀ b ∈ data, b < 256) (heven : data.length % 2 = 0)
    (hch : 0 < numChannels) (hframes : 0 < data.length / 2 / numChannels)
    (hprimary : primary data = none) :
    ∃ buf, decodeAudioData primary data sampleRate numChannels = some buf ∧
      buf.channels.length = numChannels ∧
      (∀ ch ∈ buf.channels, ch.length = data.length / 2 / numChannels) ∧
      (∀ ch ∈ buf.channels, ∀ q ∈ ch, -1 ≤ q ∧ q ≤ 1) ∧
      buf.sampleRate = sampleRate ∧
      buf.channels = (List.range numChannels).map
        (fun channel => channelSamples (int16LEPairs data) numChannels channel
          (data.length / 2 / numChannels)) := by
  have hne : ¬ numChannels = 0 := Nat.pos_iff_ne_zero.mp hch
  have hlen : (int16LEPairs data).length = data.length / 2 :=
    int16LEPairs_length data
  have hfc : ¬ (int16LEPairs data).length / numChannels = 0 := by
    rw [hlen]
    omega
  refine ⟨⟨numChannels, sampleRate,
    (List.range numChannels).map
      (fun channel => channelSamples (int16LEPairs data) numChannels channel
        ((int16LEPairs data).length / numChannels))⟩, ?_, ?_, ?_, ?_, rfl, ?_⟩
  · simp [decodeAudioData, hprimary, linear16Fallback, heven, hne, hfc]
  · simp
  · intro ch hch2
    rcases List.mem_map.mp hch2 with ⟨c, _, hc⟩
    subst hc
    simp [channelSamples, hlen]
  · intro ch hch2 q hq
    rcases List.mem_map.mp hch2 with ⟨c, _, hc⟩
    subst hc
    exact channelSamples_bounds _ _ _ _
      (int16LEPairs_bounds data hbytes) q hq
  · rw [hlen]

/-- Witness for C6's amended theorem: four bytes holding the samples
`1` and `-1` (`0xffff`). -/
theorem decodeAudioData_fallback_spec_witness :
    ∃ buf, decodeAudioData (fun _ => none) [1, 0, 255, 255] 24000 1 =
        some buf ∧
      buf.channels.length = 1 ∧
      (∀ ch ∈ buf.channels, ch.length = [1, 0, 255, 255].length / 2 / 1) ∧
      (∀ ch ∈ buf.channels, ∀ q ∈ ch, -1 ≤ q ∧ q ≤ 1) ∧
      buf.sampleRate = 24000 ∧
      buf.channels = (List.range 1).map
        (fun channel => channelSamples (int16LEPairs [1, 0, 255, 255]) 1 channel
          ([1, 0, 255, 255].length / 2 / 1)) :=
  decodeAudioData_fallback_spec (fun _ => none) [1, 0, 255, 255] 24000 1
    (by decide) (by decide) (by decide) (by decide) rfl

/-! ## Base64 decoding (`audioUtils.ts` `decodeBase64`) -/

/-- The standard base64 alphabet, index order. -/
def b64Chars : List Char :=
  ['A', 'B', 'C', 'D', 'E', 'F', 'G', 'H', 'I', 'J', 'K', 'L', 'M',
   'N', 'O', 'P', 'Q', 'R', 'S', 'T', 'U', 'V', 'W', 'X', 'Y', 'Z',
   'a', 'b', 'c', 'd', 'e', 'f', 'g', 'h', 'i', 'j', 'k', 'l', 'm',
   'n', 'o', 'p', 'q', 'r', 's', 't', 'u', 'v', 'w', 'x', 'y', 'z',
   '0', '1', '2', '3', '4', '5', '6', '7', '8', '9', '+', '/']

/-- The alphabet character of a 6-bit index. -/
def b64Char (n : Nat) : Char := b64Chars.getD n 'A'

/-- The 6-bit index of an alphabet character, if any. -/
def b64Index (c : Char) : Option Nat := b64Chars.findIdx? (fun x => x == c)

/-- One 4-character base64 group yields three bytes. -/
def atobQuad (i1 i2 i3 i4 : Nat) : List Nat :=
  [i1 * 4 + i2 / 16, i2 % 16 * 16 + i3 / 4, i3 % 4 * 64 + i4]

/-- The browser primitive `atob` (external collaborator), modelled on
padded canonical input: decode 4-character groups against the base64
alphabet, with `=` padding allowed only in the final group; any other
shape is invalid (`atob` throws, modelled as `none`). -/
def atobDecode : List Char → Option (List Nat)
  | [] => some []
  | c1 :: c2 :: c3 :: c4 :: rest =>
      match b64Index c1, b64Index c2 with
      | some i1, some i2 =>
          if c3 = '=' then
            if c4 = '=' ∧ rest = [] then some [i1 * 4 + i2 / 16] else none
          else
            match b64Index c3 with
            | some i3 =>
                if c4 = '=' then
                  if rest = [] then
                    some [i1 * 4 + i2 / 16, i2 % 16 * 16 + i3 / 4]
                  else none
                else
                  match b64Index c4 with
                  | some i4 =>
                      (atobDecode rest).map
                        (fun tail => atobQuad i1 i2 i3 i4 ++ tail)
                  | none => none
            | none => none
      | _, _ => none
  | _ => none

/-- `audioUtils.ts` `decodeBase64`: `atob` produces a binary string and
the loop copies `charCodeAt(i)` of every position into a fresh
`Uint8Array` — byte for byte the `atob` decoding itself.  `atob`
throwing on malformed input is modelled as `none`. -/
def decodeBase64 (base64 : String) : Option (List Nat) :=
  atobDecode base64.data

/-- Modelled from the spec side of the claim: the standard base64
encoding of a byte sequence (3-byte groups to 4 alphabet characters,
`=`-padded final group), whose decoding `decodeBase64` is claimed to
invert. -/
def encodeBase64Bytes : List Nat → List Char
  | [] => []
  | [a] => [b64Char (a / 4), b64Char (a % 4 * 16), '=', '=']
  | [a, b] =>
      [b64Char (a / 4), b64Char (a % 4 * 16 + b / 16), b64Char (b % 16 * 4), '=']
  | a :: b :: c :: rest =>
      b64Char (a / 4) :: b64Char (a % 4 * 16 + b / 16) ::
        b64Char (b % 16 * 4 + c / 64) :: b64Char (c % 64) ::
          encodeBase64Bytes rest

/-- Standard base64 encoding as a string. -/
def encodeBase64 (bytes : List Nat) : String := ⟨encodeBase64Bytes bytes⟩

theorem b64Index_b64Char_fin : ∀ n : Fin 64,
    b64Index (b64Char n.val) = some n.val := by decide

theorem b64Char_ne_eq_fin : ∀ n : Fin 64, b64Char n.val ≠ '=' := by decide

theorem b64Index_b64Char (n : Nat) (h : n < 64) :
    b64Index (b64Char n) = some n := b64Index_b64Char_fin ⟨n, h⟩

theorem b64Char_ne_eq (n : Nat) (h : n < 64) : b64Char n ≠ '=' :=
  b64Char_ne_eq_fin ⟨n, h⟩

theorem atobDecode_encode : ∀ bytes : List Nat, (∀ b ∈ bytes, b < 256) →
    atobDecode (encodeBase64Bytes bytes) = some bytes
  | [] => fun _ => rfl
  | [a] => fun h => by
      have ha : a < 256 := h a (by simp)
      simp [encodeBase64Bytes, atobDecode,
        b64Index_b64Char (a / 4) (by omega),
        b64Index_b64Char (a % 4 * 16) (by omega)]
      omega
  | [a, b] => fun h => by
      have ha : a < 256 := h a (by simp)
      have hb : b < 256 := h b (by simp)
      simp [encodeBase64Bytes, atobDecode,
        b64Index_b64Char (a / 4) (by omega),
        b64Index_b64Char (a % 4 * 16 + b / 16) (by omega),
        b64Index_b64Char (b % 16 * 4) (by omega),
        b64Char_ne_eq (b % 16 * 4) (by omega)]
      constructor <;> omega
  | a :: b :: c :: rest => fun h => by
      have ha : a < 256 := h a (by simp)
      have hb : b < 256 := h b (by simp)
      have hc : c < 256 := h c (by simp)
      have ih : atobDecode (encodeBase64Bytes rest) = some rest :=
        atobDecode_encode rest (fun x hx => h x (by simp [hx]))
      simp [encodeBase64Bytes, atobDecode,
        b64Index_b64Char (a / 4) (by omega),
        b64Index_b64Char (a % 4 * 16 + b / 16) (by omega),
        b64Index_b64Char (b % 16 * 4 + c / 64) (by omega),
        b64Index_b64Char (c % 64) (by omega),
        b64Char_ne_eq (b % 16 * 4 + c / 64) (by omega),
        b64Char_ne_eq (c % 64) (by omega), ih, atobQuad]
      refine ⟨?_, ?_, ?_⟩ <;> omega

/-- C10: `decodeBase64` is a left inverse of standard base64 encoding —
for every byte sequence, decoding its standard base64 encoding returns
exactly the original bytes (same length, same values). -/
theorem decodeBase64_encodeBase64 (bytes : List Nat)
    (h : ∀ b ∈ bytes, b < 256) :
    decodeBase64 (encodeBase64 bytes) = some bytes :=
  atobDecode_encode bytes h

/-- Witness for C10's theorem on a 5-byte input (exercising the
`=`-padded final group). -/
theorem decodeBase64_encodeBase64_witness :
    decodeBase64 (encodeBase64 [77, 97, 110, 0, 255]) =
      some [77, 97, 110, 0, 255] :=
  decodeBase64_encodeBase64 [77, 97, 110, 0, 255] (by decide)
